import Mathlib

/-!
Shallow embedding of the secondbrain entity-record store with freshness
evaluation, translated from `plugins/secondbrain/hooks/freshness-check.py`
and `plugins/secondbrain/hooks/session-context.py`.

Modelling conventions:
* YAML scalar field values are modelled as `Option String`; a missing key or
  an explicit null is `none`.  Python truthiness of such a value (`None` and
  `""` are falsy) is `truthyStr`.
* `datetime` values are modelled as seconds since the Unix epoch (`Int`);
  a calendar date parsed from `"%Y-%m-%d"` is its day number (`Int`, days
  since 1970-01-01), and its `datetime` value is `day * 86400` (midnight).
* `timedelta.days` of a difference of `x` seconds is `Int.fdiv x 86400`
  (Python floors).
* Python string comparison (used as a sort key) is code-point lexicographic,
  which coincides with the lexicographic order on `List Char`; sort keys of
  type `String` are therefore compared through `String.data`.
* `sortKeyDesc` is a stable descending insertion sort; it has the same
  semantics as Python `sorted(xs, key=key, reverse=True)` (descending, ties
  keep input order), which is the unique stable sort for that comparator.
-/

namespace SecondBrain

/-- Python truthiness of an optional string value: `None` and `""` are falsy. -/
def truthyStr : Option String → Bool
  | none => false
  | some s => s ≠ ""

/-- Models Python `a or b` on two optional string values. -/
def orTruthy (a b : Option String) : Option String :=
  if truthyStr a then a else b

/-! ### Character-list string utilities

Structural reimplementations of `String.splitOn`, `String.toNat?`,
`String.toLower` and `String.dropRightWhile` (the library versions are
iterator-based and do not reduce inside the kernel); each has the same
behaviour on the inputs this development uses. -/

/-- `String.splitOn` on a single-character separator, over the character
list. -/
def splitOnChar (c : Char) : List Char → List (List Char)
  | [] => [[]]
  | x :: xs =>
    let r := splitOnChar c xs
    if x = c then [] :: r
    else
      match r with
      | [] => [[x]]
      | h :: t => (x :: h) :: t

/-- Decimal value of a digit character. -/
def digitVal (c : Char) : Option Nat :=
  if '0' ≤ c ∧ c ≤ '9' then some (c.toNat - 48) else none

/-- Accumulating decimal reader. -/
def digitsAux (acc : Nat) : List Char → Option Nat
  | [] => some acc
  | c :: cs =>
    match digitVal c with
    | none => none
    | some d => digitsAux (acc * 10 + d) cs

/-- `String.toNat?` over the character list: `some` exactly on nonempty
all-digit strings. -/
def digitsToNat : List Char → Option Nat
  | [] => none
  | l => digitsAux 0 l

/-- `str.lower()` (ASCII; the statuses compared here are ASCII). -/
def lowerStr (s : String) : String :=
  ⟨s.data.map Char.toLower⟩

/-! ### Date parsing (models `datetime.strptime(s, "%Y-%m-%d")`) -/

/-- Gregorian leap-year test, as in Python's `datetime`. -/
def isLeap (y : Nat) : Bool :=
  (y % 4 == 0 && y % 100 != 0) || y % 400 == 0

/-- Number of days in month `m` of year `y`. -/
def daysInMonth (y m : Nat) : Nat :=
  if m = 2 then (if isLeap y then 29 else 28)
  else if m = 4 ∨ m = 6 ∨ m = 9 ∨ m = 11 then 30 else 31

/-- Days from 0001-03-01-based civil calendar to the given date, as a count
from an era origin; standard civil-calendar day-numbering arithmetic
(`days_from_civil`).  Valid for `1 ≤ y`, `1 ≤ m ≤ 12`. -/
def daysFromCivilN (y m d : Nat) : Nat :=
  let y' := if m ≤ 2 then y - 1 else y
  let era := y' / 400
  let yoe := y' - era * 400
  let mp := (m + 9) % 12
  let doy := (153 * mp + 2) / 5 + d - 1
  let doe := yoe * 365 + yoe / 4 - yoe / 100 + doy
  era * 146097 + doe

/-- Day number (days since 1970-01-01) of a civil date; 719468 is the civil
day count of 1970-01-01. -/
def dayNumber (y m d : Nat) : Int :=
  (daysFromCivilN y m d : Int) - 719468

/-- Models CPython `datetime.strptime(s, "%Y-%m-%d")`: `%Y` is exactly four
digits, `%m` and `%d` are one or two digits, the separators are literal
dashes, the whole string must match, and the resulting triple must be a
valid calendar date with year at least 1.  Returns the day number. -/
def parseDate (s : String) : Option Int :=
  match splitOnChar '-' s.data with
  | [ys, ms, ds] =>
    match digitsToNat ys, digitsToNat ms, digitsToNat ds with
    | some y, some m, some d =>
      if ys.length = 4 ∧ ms.length ≤ 2 ∧ ds.length ≤ 2 ∧
         1 ≤ y ∧ 1 ≤ m ∧ m ≤ 12 ∧ 1 ≤ d ∧ d ≤ daysInMonth y m then
        some (dayNumber y m d)
      else none
    | _, _, _ => none
  | _ => none

/-- A two-digit decimal field. -/
def parse2 (s : List Char) : Option Nat :=
  if s.length = 2 then digitsToNat s else none

/-- Seconds field `SS`, optionally followed by a fractional part `.fff` or
`.ffffff` (the three- and six-digit forms are the ones every CPython
version's `fromisoformat` accepts).  The fraction lies below this model's
one-second granularity and is truncated away, exactly as the integral
seconds of the parsed `datetime` are unaffected by its microseconds. -/
def parseSeconds (s : List Char) : Option Nat :=
  match splitOnChar '.' s with
  | [ss] => parse2 ss
  | [ss, fs] =>
    if (fs.length = 3 ∨ fs.length = 6) ∧ fs.all Char.isDigit then parse2 ss
    else none
  | _ => none

/-- Time-of-day part `HH`, `HH:MM` or `HH:MM:SS[.fff[fff]]` in whole
seconds. -/
def parseTime (t : String) : Option Nat :=
  match splitOnChar ':' t.data with
  | [hs] => (parse2 hs).bind fun h => if h ≤ 23 then some (h * 3600) else none
  | [hs, ms] =>
    (parse2 hs).bind fun h =>
      (parse2 ms).bind fun m =>
        if h ≤ 23 ∧ m ≤ 59 then some (h * 3600 + m * 60) else none
  | [hs, ms, ss] =>
    (parse2 hs).bind fun h =>
      (parse2 ms).bind fun m =>
        (parseSeconds ss).bind fun s =>
          if h ≤ 23 ∧ m ≤ 59 ∧ s ≤ 59 then
            some (h * 3600 + m * 60 + s) else none
  | _ => none

/-- Models `datetime.fromisoformat` restricted to offset-naive inputs
`YYYY-MM-DD[<sep>HH[:MM[:SS[.fff[fff]]]]]` (the subset accepted by every
CPython version; inputs outside it, such as timezone offsets — whose
aware result makes the later naive-minus-aware subtraction raise into the
caller's `except`, the same outcome as a parse failure — are treated as a
parse failure).  Returns whole seconds since the epoch; fractional seconds
lie below the model's one-second granularity and are truncated. -/
def fromisoformat (s : String) : Option Int :=
  match parseDate ⟨s.data.take 10⟩ with
  | none => none
  | some days =>
    if s.length = 10 then some (days * 86400)
    else
      match parseTime ⟨s.data.drop 11⟩ with
      | none => none
      | some secs => some (days * 86400 + secs)

/-! ### Data model -/

/-- A record: a loosely-typed YAML mapping restricted to the keys the two
hook scripts read. -/
structure Record where
  id : Option String := none
  number : Option String := none
  title : Option String := none
  topic : Option String := none
  status : Option String := none
  created : Option String := none
  date : Option String := none
  date_created : Option String := none
  date_updated : Option String := none
deriving DecidableEq, Repr

/-- One per-entity configuration entry (`config["entities"][entity]`).
`freshness_stale_after_days` models `entity_config.get("freshness",
{}).get("stale_after_days", 30)`: `none` means the key is absent and the
default 30 applies. -/
structure EntityConfig where
  enabled : Bool := false
  partitioned : Option String := none
  singular : Option String := none
  freshness_stale_after_days : Option Int := none
deriving DecidableEq, Repr

/-- One `*.yaml` file of a partitioned entity directory.  `content = none`
models a file on which `yaml.safe_load` raises; `content = some recs` is the
parsed record list (`yaml.safe_load(f) or []`). -/
structure PartFile where
  name : String
  content : Option (List Record)
deriving DecidableEq, Repr

/-- The on-disk state of one entity's data directory.
`recordsFile = none` models an absent `records.yaml`; `some none` a
`records.yaml` on which parsing raises; `some (some recs)` the list
`data.get("records", [])`. -/
structure EntityData where
  dirExists : Bool := false
  files : List PartFile := []
  recordsFile : Option (Option (List Record)) := none
deriving Repr

/-- A loaded configuration plus the filesystem snapshot it is evaluated
against.  `entities` is the ordered mapping `config["entities"]`;
`meta_last_freshness_check` is `config.get("meta", {}).get("last_freshness_check")`. -/
structure Project where
  entities : List (String × EntityConfig) := []
  meta_last_freshness_check : Option String := none
  data : String → EntityData := fun _ => {}

/-- Dict lookup `config.get("entities", {}).get(entity, {})`. -/
def lookupEntity (proj : Project) (entity : String) : EntityConfig :=
  ((proj.entities.find? fun p => p.1 = entity).map Prod.snd).getD {}

/-- One staleness entry as appended to `stale_items`.  The partitioned
branch leaves `title` and `status` as `none` (its dicts lack those keys). -/
structure StaleItem where
  entity : String
  id : String
  title : Option String := none
  status : Option String := none
  date : String
  days_old : Int
deriving DecidableEq, Repr

/-- Record counts returned by `count_entity_records`. -/
structure Stats where
  total : Nat
  active : Nat
deriving DecidableEq, Repr

/-! ### Stable descending sort (Python `sorted(xs, key=key, reverse=True)`) -/

/-- Insert `x` before the first element whose key is `≤ key x`; elements with
strictly greater keys stay in front.  This realizes a stable descending
order: earlier input elements precede later ones with an equal key. -/
def insertKeyDesc {α : Type} {K : Type} [LinearOrder K] (key : α → K)
    (x : α) : List α → List α
  | [] => [x]
  | y :: ys => if key x < key y then y :: insertKeyDesc key x ys else x :: y :: ys

/-- Stable descending insertion sort by `key`; extensionally equal to Python
`sorted(xs, key=key, reverse=True)` (descending and stable). -/
def sortKeyDesc {α : Type} {K : Type} [LinearOrder K] (key : α → K) :
    List α → List α
  | [] => []
  | x :: xs => insertKeyDesc key x (sortKeyDesc key xs)

/-! ### Freshness evaluation (`freshness-check.py`, `check_entity_freshness`) -/

/-- The closed-status list of the unpartitioned branch (line 130),
matched against the lower-cased status. -/
def closedStatusesUnpart : List String :=
  ["archived", "completed", "done", "canceled", "rejected", "tested", "implemented"]

/-- The closed-status list of the partitioned branch (line 89),
matched against the raw status value. -/
def closedStatusesPart : List String :=
  ["archived", "completed", "done", "canceled"]

/-- Identity of a partitioned-branch staleness entry:
`record.get("id", record.get("topic", "Unknown"))` (presence-based). -/
def partIdentity (r : Record) : String :=
  match r.id with
  | some v => v
  | none => r.topic.getD "Unknown"

/-- Identity of an unpartitioned-branch staleness entry:
`record.get("id") or record.get("number") or record.get("title", "Unknown")`
(truthiness-based). -/
def unpartIdentity (r : Record) : String :=
  if truthyStr r.id then r.id.getD ""
  else if truthyStr r.number then r.number.getD ""
  else r.title.getD "Unknown"

/-- The date field of the unpartitioned branch (lines 113-118):
`record.get("created") or record.get("date") or record.get("date_created")
or record.get("date_updated")`. -/
def resolvedDateStr (r : Record) : Option String :=
  orTruthy r.created (orTruthy r.date (orTruthy r.date_created r.date_updated))

/-- `(datetime.now() - record_date).days` for a record whose date parsed to
day number `d`. -/
def daysOld (now : Int) (d : Int) : Int :=
  Int.fdiv (now - d * 86400) 86400

/-- Loop body of the unpartitioned branch (lines 111-141): at most one
staleness entry per record; `none` models `continue`. -/
def unpartProcessRecord (entity : String) (staleThreshold now : Int)
    (r : Record) : Option StaleItem :=
  if ¬ truthyStr (resolvedDateStr r) then none
  else
    match parseDate ((resolvedDateStr r).getD "") with
    | none => none
    | some d =>
      if lowerStr (r.status.getD "") ∈ closedStatusesUnpart then none
      else if d * 86400 < staleThreshold then
        some { entity := entity
               id := unpartIdentity r
               title := some (r.title.getD "")
               status := some (lowerStr (r.status.getD ""))
               date := (resolvedDateStr r).getD ""
               days_old := daysOld now d }
      else none

/-- Loop of the partitioned branch over one file's records (lines 83-95).
A record whose `date` value fails `strptime` raises, which the per-file
`except` catches: the rest of this file's records are dropped while entries
already appended are kept — hence the `[]` on a parse failure. -/
def partProcessRecords (entity : String) (staleThreshold now : Int) :
    List Record → List StaleItem
  | [] => []
  | r :: rest =>
    if truthyStr r.date then
      match parseDate (r.date.getD "") with
      | none => []
      | some d =>
        if d * 86400 < staleThreshold then
          if (r.status.getD "unknown") ∈ closedStatusesPart then
            partProcessRecords entity staleThreshold now rest
          else
            { entity := entity
              id := partIdentity r
              date := r.date.getD ""
              days_old := daysOld now d } :: partProcessRecords entity staleThreshold now rest
        else partProcessRecords entity staleThreshold now rest
    else partProcessRecords entity staleThreshold now rest

/-- Unfolding of the partitioned loop on a record with a falsy `date`. -/
theorem partProcessRecords_cons_nodate {e : String} {th now : Int}
    {r : Record} {rest : List Record} (ht : ¬ truthyStr r.date) :
    partProcessRecords e th now (r :: rest) =
      partProcessRecords e th now rest := by
  simp [partProcessRecords, ht]

/-- Unfolding of the partitioned loop on a record whose `date` fails to
parse: the per-file loop is aborted. -/
theorem partProcessRecords_cons_invalid {e : String} {th now : Int}
    {r : Record} {rest : List Record} (ht : truthyStr r.date)
    (hp : parseDate (r.date.getD "") = none) :
    partProcessRecords e th now (r :: rest) = [] := by
  simp [partProcessRecords, ht, hp]

/-- Unfolding of the partitioned loop on a record whose `date` parses. -/
theorem partProcessRecords_cons_valid {e : String} {th now : Int}
    {r : Record} {rest : List Record} {d : Int} (ht : truthyStr r.date)
    (hp : parseDate (r.date.getD "") = some d) :
    partProcessRecords e th now (r :: rest) =
      if d * 86400 < th then
        if (r.status.getD "unknown") ∈ closedStatusesPart then
          partProcessRecords e th now rest
        else
          { entity := e, id := partIdentity r, date := r.date.getD ""
            days_old := daysOld now d } :: partProcessRecords e th now rest
      else partProcessRecords e th now rest := by
  simp [partProcessRecords, ht, hp]

/-- The partitioned branch's loop over the entity directory's `*.yaml`
files (lines 75-97): `schema.yaml` is skipped, a file whose parse raises
contributes nothing, every other file contributes its entries in order. -/
def partStaleFiles (entity : String) (staleThreshold now : Int)
    (files : List PartFile) : List StaleItem :=
  files.flatMap fun f =>
    if f.name = "schema.yaml" then []
    else
      match f.content with
      | none => []
      | some recs => partProcessRecords entity staleThreshold now recs

/-- `check_entity_freshness(project_root, entity, config)` (lines 53-145),
with `now` injected for `datetime.now()`. -/
def check_entity_freshness (proj : Project) (now : Int) (entity : String) :
    List StaleItem :=
  let entity_config := lookupEntity proj entity
  if ¬ entity_config.enabled then []
  else
    let stale_days := entity_config.freshness_stale_after_days.getD 30
    let stale_threshold := now - stale_days * 86400
    let partitioned := entity_config.partitioned = some "monthly"
    let d := proj.data entity
    if ¬ d.dirExists then []
    else if partitioned then
      partStaleFiles entity stale_threshold now d.files
    else
      match d.recordsFile with
      | none => []
      | some none => []
      | some (some records) =>
        records.filterMap (unpartProcessRecord entity stale_threshold now)

/-! ### The freshness hook's `main` (lines 148-236) -/

/-- Rate-limit gate of `main` (lines 169-180): skip the whole run when
`meta.last_freshness_check` is truthy, parses, and is less than one hour
before `now`. -/
def rateLimited (proj : Project) (now : Int) : Bool :=
  match proj.meta_last_freshness_check with
  | none => false
  | some s =>
    if s = "" then false
    else
      match fromisoformat s with
      | none => false
      | some t => decide (now - t < 3600)

/-- Aggregation over all configured entities (lines 183-187), in
configuration order. -/
def allStale (proj : Project) (now : Int) : List StaleItem :=
  proj.entities.flatMap fun p => check_entity_freshness proj now p.1

/-- `all_stale.sort(key=lambda x: x.get("days_old", 0), reverse=True)`
(line 190): stable descending sort by `days_old`. -/
def sortedStale (proj : Project) (now : Int) : List StaleItem :=
  sortKeyDesc (fun x => x.days_old) (allStale proj now)

/-- The structured payload `output` built by `main` (lines 197-201):
the untruncated count next to the top-10 detail list. -/
structure FreshOutput where
  total_stale : Nat
  details : List StaleItem
deriving DecidableEq, Repr

/-- The freshness hook run, given a loaded configuration: `none` when the
run is rate-limited or no item is stale (nothing is printed), otherwise the
structured payload. -/
def mainOutput (proj : Project) (now : Int) : Option FreshOutput :=
  if rateLimited proj now then none
  else if (sortedStale proj now).isEmpty then none
  else some { total_stale := (sortedStale proj now).length
              details := (sortedStale proj now).take 10 }

/-! ### Record counting (`session-context.py`, `count_entity_records`) -/

/-- Active-status test of the partitioned counting loop (lines 76-78). -/
def partActive (r : Record) : Bool :=
  ¬ (lowerStr (r.status.getD "") ∈ ["archived", "canceled"])

/-- Active-status test of the unpartitioned counting loop (lines 90-92). -/
def unpartActive (r : Record) : Bool :=
  ¬ (lowerStr (r.status.getD "") ∈ ["archived", "completed", "done", "canceled", "rejected"])

/-- Contribution of one partitioned `*.yaml` file to the counters
(lines 67-80): `schema.yaml` and unparseable files contribute nothing. -/
def fileStats (f : PartFile) : Stats :=
  if f.name = "schema.yaml" then ⟨0, 0⟩
  else
    match f.content with
    | none => ⟨0, 0⟩
    | some recs => ⟨recs.length, recs.countP partActive⟩

/-- The partitioned counting loop (lines 66-80): fold the per-file
contributions over the directory's files in order. -/
def partCountFiles (files : List PartFile) : Stats :=
  files.foldl
    (fun acc f => ⟨acc.total + (fileStats f).total, acc.active + (fileStats f).active⟩)
    ⟨0, 0⟩

/-- `count_entity_records(project_root, entity, config)` (lines 50-96),
accumulating `total`/`active` over the entity's storage. -/
def count_entity_records (proj : Project) (entity : String) : Stats :=
  let entity_config := lookupEntity proj entity
  if ¬ entity_config.enabled then ⟨0, 0⟩
  else
    let d := proj.data entity
    if ¬ d.dirExists then ⟨0, 0⟩
    else if entity_config.partitioned = some "monthly" then
      partCountFiles d.files
    else
      match d.recordsFile with
      | none => ⟨0, 0⟩
      | some none => ⟨0, 0⟩
      | some (some records) => ⟨records.length, records.countP unpartActive⟩

/-! ### Activity summary (`session-context.py`, `get_recent_activity`) -/

/-- Sort key for partitioned activity records (line 126):
`x.get("date", "")`, compared as a Python string. -/
def partDateKey (r : Record) : List Char :=
  (r.date.getD "").data

/-- Sort key for unpartitioned activity records (line 147):
`x.get("created") or x.get("date_created") or ""`. -/
def unpartDateKey (r : Record) : List Char :=
  ((orTruthy r.created r.date_created).getD "").data

/-- Most-recent pick of a partitioned entity (lines 117-135): walk the
`*.yaml` files sorted by name descending, skip `schema.yaml` and files whose
parse raises, and in the first file containing a record with a truthy
`date`, take the first such record of the file's records sorted by the date
string descending.  Returns the record and `most_recent_date`. -/
def partMostRecent (files : List PartFile) : Option (Record × String) :=
  (sortKeyDesc (fun f => f.name.data) files).findSome? fun f =>
    if f.name = "schema.yaml" then none
    else
      match f.content with
      | none => none
      | some recs =>
        ((sortKeyDesc partDateKey recs).find? fun r => truthyStr r.date).map
          fun r => (r, r.date.getD "")

/-- Most-recent pick of an unpartitioned entity (lines 137-157): head of the
records sorted by the created/date_created key descending, paired with
`most_recent.get("created") or most_recent.get("date_created")`. -/
def unpartMostRecent (records : List Record) : Option (Record × Option String) :=
  match sortKeyDesc unpartDateKey records with
  | [] => none
  | top :: _ => some (top, orTruthy top.created top.date_created)

/-- `entity.rstrip("s")`: strip every trailing `'s'`. -/
def stripPluralS (s : String) : String :=
  ⟨(s.data.reverse.dropWhile (· = 's')).reverse⟩

/-- The summary line of lines 160-162:
`- Last {singular}: "{title}" ({date})`. -/
def activityLine (entity : String) (ecfg : EntityConfig) (r : Record)
    (dateStr : String) : String :=
  let singular := ecfg.singular.getD (stripPluralS entity)
  let title :=
    if truthyStr r.title then r.title.getD ""
    else if truthyStr r.topic then r.topic.getD ""
    else r.id.getD ""
  s!"- Last {singular}: \"{title}\" ({dateStr})"

/-- Per-entity body of the `get_recent_activity` loop (lines 103-162): at
most one line per entity; `none` models `continue` or a falsy
`most_recent`/`most_recent_date`.  (A record reached here is never an empty
mapping, because its selection required a truthy date field, so the
`most_recent and` part of the guard on line 159 is subsumed by the date
check.) -/
def entityActivity (proj : Project) (entity : String) (ecfg : EntityConfig) :
    Option String :=
  if ¬ ecfg.enabled then none
  else
    if ¬ (proj.data entity).dirExists then none
    else if ecfg.partitioned = some "monthly" then
      (partMostRecent (proj.data entity).files).map fun p =>
        activityLine entity ecfg p.1 p.2
    else
      match (proj.data entity).recordsFile with
      | none => none
      | some none => none
      | some (some records) =>
        match unpartMostRecent records with
        | none => none
        | some (top, dateOpt) =>
          if truthyStr dateOpt then
            some (activityLine entity ecfg top (dateOpt.getD ""))
          else none

/-- `get_recent_activity(project_root, config)` (lines 99-164): the per-entity
lines in configuration order, truncated by `activities[:5]`. -/
def get_recent_activity (proj : Project) : List String :=
  (proj.entities.filterMap fun p => entityActivity proj p.1 p.2).take 5

/-! ### Properties of the stable descending sort -/

section SortLemmas

variable {α K : Type} [LinearOrder K] (key : α → K)

theorem insertKeyDesc_perm (x : α) (l : List α) :
    (insertKeyDesc key x l).Perm (x :: l) := by
  induction l with
  | nil => simp [insertKeyDesc]
  | cons y ys ih =>
    by_cases h : key x < key y
    · simp only [insertKeyDesc, if_pos h]
      exact ((ih.cons y).trans (List.Perm.swap x y ys))
    · simp [insertKeyDesc, if_neg h]

theorem sortKeyDesc_perm (l : List α) : (sortKeyDesc key l).Perm l := by
  induction l with
  | nil => simp [sortKeyDesc]
  | cons x xs ih =>
    exact (insertKeyDesc_perm key x (sortKeyDesc key xs)).trans (ih.cons x)

theorem mem_insertKeyDesc {x z : α} {l : List α} :
    z ∈ insertKeyDesc key x l ↔ z = x ∨ z ∈ l := by
  rw [(insertKeyDesc_perm key x l).mem_iff, List.mem_cons]

theorem insertKeyDesc_pairwise {x : α} {l : List α}
    (h : l.Pairwise fun a b => key b ≤ key a) :
    (insertKeyDesc key x l).Pairwise fun a b => key b ≤ key a := by
  induction l with
  | nil => simp [insertKeyDesc]
  | cons y ys ih =>
    rcases List.pairwise_cons.mp h with ⟨hy, hys⟩
    by_cases hlt : key x < key y
    · simp only [insertKeyDesc, if_pos hlt]
      refine List.pairwise_cons.mpr ⟨?_, ih hys⟩
      intro z hz
      rcases (mem_insertKeyDesc key).mp hz with rfl | hz
      · exact le_of_lt hlt
      · exact hy z hz
    · simp only [insertKeyDesc, if_neg hlt]
      refine List.pairwise_cons.mpr ⟨?_, h⟩
      intro z hz
      rcases List.mem_cons.mp hz with rfl | hz
      · exact le_of_not_lt hlt
      · exact le_trans (hy z hz) (le_of_not_lt hlt)

theorem sortKeyDesc_pairwise (l : List α) :
    (sortKeyDesc key l).Pairwise fun a b => key b ≤ key a := by
  induction l with
  | nil => simp [sortKeyDesc]
  | cons x xs ih => exact insertKeyDesc_pairwise key ih

theorem filter_insertKeyDesc_eq (x : α) (l : List α) (k : K) (hx : key x = k) :
    (insertKeyDesc key x l).filter (fun a => key a = k) =
      x :: l.filter fun a => key a = k := by
  induction l with
  | nil => simp [insertKeyDesc, hx]
  | cons y ys ih =>
    by_cases hlt : key x < key y
    · have hyk : ¬ (key y = k) := by
        intro hk
        rw [hx, hk] at hlt
        exact lt_irrefl k hlt
      simp only [insertKeyDesc, if_pos hlt, List.filter_cons, ih]
      simp [hyk]
    · simp only [insertKeyDesc, if_neg hlt, List.filter_cons]
      simp [hx]

theorem filter_insertKeyDesc_ne (x : α) (l : List α) (k : K) (hx : key x ≠ k) :
    (insertKeyDesc key x l).filter (fun a => key a = k) =
      l.filter fun a => key a = k := by
  induction l with
  | nil => simp [insertKeyDesc, hx]
  | cons y ys ih =>
    by_cases hlt : key x < key y
    · simp only [insertKeyDesc, if_pos hlt, List.filter_cons, ih]
    · simp [insertKeyDesc, if_neg hlt, List.filter_cons, hx]

/-- Stability of the sort: for every key value, the elements carrying that
key appear in the sorted output in their input order. -/
theorem sortKeyDesc_filter_key (l : List α) (k : K) :
    (sortKeyDesc key l).filter (fun a => key a = k) =
      l.filter fun a => key a = k := by
  induction l with
  | nil => simp [sortKeyDesc]
  | cons x xs ih =>
    by_cases hx : key x = k
    · rw [sortKeyDesc, filter_insertKeyDesc_eq key x _ k hx, ih,
        List.filter_cons, if_pos (by simpa using hx)]
    · rw [sortKeyDesc, filter_insertKeyDesc_ne key x _ k hx, ih,
        List.filter_cons, if_neg (by simpa using hx)]

end SortLemmas

/-! ### Characterizations of the per-record staleness processing -/

/-- Inclusion forces the whole-day age to reach the threshold parameter:
from `d * 86400 < now - s * 86400` follows `s ≤ (now - d * 86400) // 86400`. -/
theorem daysOld_ge {now d s : Int} (h : d * 86400 < now - s * 86400) :
    s ≤ daysOld now d := by
  unfold daysOld
  rw [Int.fdiv_eq_ediv _ (by norm_num : (0 : Int) ≤ 86400)]
  omega

/-- What a `some` result of the unpartitioned per-record step says about the
record and the produced entry. -/
theorem unpartProcessRecord_some_spec {e : String} {th now : Int} {r : Record}
    {item : StaleItem} (h : unpartProcessRecord e th now r = some item) :
    ∃ d, parseDate ((resolvedDateStr r).getD "") = some d ∧ d * 86400 < th ∧
      lowerStr (r.status.getD "") ∉ closedStatusesUnpart ∧
      item = { entity := e, id := unpartIdentity r, title := some (r.title.getD "")
               status := some (lowerStr (r.status.getD ""))
               date := (resolvedDateStr r).getD "", days_old := daysOld now d } := by
  unfold unpartProcessRecord at h
  split at h
  · exact absurd h (by simp)
  · split at h
    · exact absurd h (by simp)
    · rename_i d hp
      split at h
      · exact absurd h (by simp)
      · rename_i hs
        split at h
        · rename_i hth
          exact ⟨d, hp, hth, hs, (Option.some_inj.mp h).symm⟩
        · exact absurd h (by simp)

/-- What membership in the partitioned per-file loop's output says about
its origin record. -/
theorem mem_partProcessRecords {e : String} {th now : Int} {recs : List Record}
    {item : StaleItem} (h : item ∈ partProcessRecords e th now recs) :
    ∃ r ∈ recs, ∃ d, parseDate (r.date.getD "") = some d ∧ d * 86400 < th ∧
      (r.status.getD "unknown") ∉ closedStatusesPart ∧
      item = { entity := e, id := partIdentity r, date := r.date.getD ""
               days_old := daysOld now d } := by
  induction recs with
  | nil => exact absurd h (by simp [partProcessRecords])
  | cons r rest ih =>
    unfold partProcessRecords at h
    by_cases ht : truthyStr r.date
    · simp only [if_pos ht] at h
      cases hp : parseDate (r.date.getD "") with
      | none => rw [hp] at h; exact absurd h (by simp)
      | some d =>
        rw [hp] at h
        by_cases hth : d * 86400 < th
        · simp only [if_pos hth] at h
          by_cases hs : (r.status.getD "unknown") ∈ closedStatusesPart
          · simp only [if_pos hs] at h
            obtain ⟨r', hr', rest'⟩ := ih h
            exact ⟨r', List.mem_cons_of_mem r hr', rest'⟩
          · simp only [if_neg hs] at h
            rcases List.mem_cons.mp h with rfl | h'
            · exact ⟨r, List.mem_cons_self r rest, d, hp, hth, hs, rfl⟩
            · obtain ⟨r', hr', rest'⟩ := ih h'
              exact ⟨r', List.mem_cons_of_mem r hr', rest'⟩
        · simp only [if_neg hth] at h
          obtain ⟨r', hr', rest'⟩ := ih h
          exact ⟨r', List.mem_cons_of_mem r hr', rest'⟩
    · simp only [if_neg ht] at h
      obtain ⟨r', hr', rest'⟩ := ih h
      exact ⟨r', List.mem_cons_of_mem r hr', rest'⟩

/-- All records physically present in an entity's storage: those of every
parseable partition file, followed by those of a parseable `records.yaml`. -/
def storedRecords (d : EntityData) : List Record :=
  (d.files.flatMap fun f => f.content.getD []) ++ ((d.recordsFile.getD none).getD [])

/-- Origin of a staleness entry: it stems from a stored record via the
branch-specific identity function, and its age field comes from a parsed
day number strictly below the entity's threshold. -/
theorem mem_check_entity_freshness {proj : Project} {now : Int}
    {entity : String} {item : StaleItem}
    (h : item ∈ check_entity_freshness proj now entity) :
    ∃ d : Int,
      d * 86400 <
        now - ((lookupEntity proj entity).freshness_stale_after_days.getD 30) * 86400 ∧
      item.days_old = daysOld now d ∧
      ∃ r ∈ storedRecords (proj.data entity),
        if (lookupEntity proj entity).partitioned = some "monthly"
        then item.id = partIdentity r else item.id = unpartIdentity r := by
  simp only [check_entity_freshness] at h
  split at h
  · exact absurd h (by simp)
  · split at h
    · exact absurd h (by simp)
    · split at h
      · rename_i hpart
        rcases List.mem_flatMap.mp h with ⟨f, hf, hitem⟩
        split at hitem
        · exact absurd hitem (by simp)
        · split at hitem
          · exact absurd hitem (by simp)
          · rename_i recs hrecs
            obtain ⟨r, hr, d, hp, hth, hs, hitem'⟩ := mem_partProcessRecords hitem
            refine ⟨d, hth, by rw [hitem'], r, ?_, ?_⟩
            · exact List.mem_append_left _
                (List.mem_flatMap.mpr ⟨f, hf, by rw [hrecs]; exact hr⟩)
            · rw [if_pos hpart, hitem']
      · rename_i hpart
        split at h
        · exact absurd h (by simp)
        · exact absurd h (by simp)
        · rename_i recs hrecs
          rcases List.mem_filterMap.mp h with ⟨r, hr, heq⟩
          obtain ⟨d, hp, hth, hs, hitem'⟩ := unpartProcessRecord_some_spec heq
          refine ⟨d, hth, by rw [hitem'], r, ?_, ?_⟩
          · simp only [storedRecords]
            exact List.mem_append_right _ (by rw [hrecs]; exact hr)
          · rw [if_neg hpart, hitem']

/-- A value whose `getD ""` parses as a date is a truthy string. -/
theorem truthy_of_parseDate {o : Option String} {d : Int}
    (hp : parseDate (o.getD "") = some d) : truthyStr o = true := by
  cases o with
  | none =>
    rw [show parseDate (Option.getD none "") = none from by decide] at hp
    exact absurd hp (by simp)
  | some v =>
    by_cases hv : v = ""
    · subst hv
      rw [show parseDate (Option.getD (some "") "") = none from by decide] at hp
      exact absurd hp (by simp)
    · simp [truthyStr, hv]

/-- For a record with a parseable resolved date and a non-closed status, the
unpartitioned step emits an entry exactly when the parsed day lies strictly
below the threshold. -/
theorem unpartProcessRecord_stale_iff {e : String} {th now : Int} {r : Record}
    {d : Int} (hp : parseDate ((resolvedDateStr r).getD "") = some d)
    (hs : lowerStr (r.status.getD "") ∉ closedStatusesUnpart) :
    (unpartProcessRecord e th now r).isSome ↔ d * 86400 < th := by
  have ht := truthy_of_parseDate hp
  unfold unpartProcessRecord
  rw [if_neg (by simp [ht])]
  simp only [hp, hs, if_false]
  by_cases hth : d * 86400 < th <;> simp [hth, hs]

/-! ### The claims -/

/-- C10: every entry of the staleness sequence has `days_old` at least the
entity's effective `stale_after_days` (hence nonnegative whenever that
threshold is nonnegative): inclusion requires the record's date to lie
strictly before `now` minus the threshold, so the whole-day age cannot fall
below the threshold. -/
theorem c10_days_old_at_least_threshold {proj : Project} {now : Int}
    {entity : String} {item : StaleItem}
    (h : item ∈ check_entity_freshness proj now entity) :
    ((lookupEntity proj entity).freshness_stale_after_days.getD 30) ≤ item.days_old ∧
    (0 ≤ (lookupEntity proj entity).freshness_stale_after_days.getD 30 →
      0 ≤ item.days_old) := by
  obtain ⟨d, hth, hdays, -⟩ := mem_check_entity_freshness h
  have hge := daysOld_ge hth
  exact ⟨by rw [hdays]; exact hge, fun h0 => by rw [hdays]; exact le_trans h0 hge⟩

def projC10 : Project :=
  { entities := [("tasks", { enabled := true })]
    data := fun _ =>
      { dirExists := true
        recordsFile := some (some
          [{ created := some "2024-01-01", status := some "open" }]) } }

def itemC10 : StaleItem :=
  { entity := "tasks", id := "Unknown", title := some "", status := some "open"
    date := "2024-01-01", days_old := 60 }

theorem c10_witness :
    ((lookupEntity projC10 "tasks").freshness_stale_after_days.getD 30) ≤ itemC10.days_old ∧
    (0 ≤ (lookupEntity projC10 "tasks").freshness_stale_after_days.getD 30 →
      0 ≤ itemC10.days_old) :=
  @c10_days_old_at_least_threshold projC10 ((19753 + 30) * 86400) "tasks" itemC10
    (by decide)

/-- C7: an entity whose configuration is disabled (or lacks the `enabled`
key, which defaults to disabled) contributes an empty staleness list, zero
record counts and no activity line, whatever its storage contains. -/
theorem c7_disabled_entity_contributes_nothing (proj : Project) (now : Int)
    (entity : String) (h : (lookupEntity proj entity).enabled = false) :
    check_entity_freshness proj now entity = [] ∧
    count_entity_records proj entity = ⟨0, 0⟩ ∧
    ∀ ecfg : EntityConfig, ecfg.enabled = false →
      entityActivity proj entity ecfg = none := by
  refine ⟨?_, ?_, ?_⟩
  · simp [check_entity_freshness, h]
  · simp [count_entity_records, h]
  · intro ecfg hc
    simp [entityActivity, hc]

def projC7 : Project :=
  { entities := [("tasks", { enabled := false })]
    data := fun _ =>
      { dirExists := true
        recordsFile := some (some
          [{ created := some "2020-01-01", status := some "open" }]) } }

theorem c7_witness :
    check_entity_freshness projC7 1709251200 "tasks" = [] ∧
    count_entity_records projC7 "tasks" = ⟨0, 0⟩ ∧
    entityActivity projC7 "tasks" { enabled := false } = none := by
  obtain ⟨a, b, c⟩ :=
    c7_disabled_entity_contributes_nothing projC7 1709251200 "tasks" (by decide)
  exact ⟨a, b, c _ rfl⟩

/-- C8: in partitioned storage a file whose parse fails contributes nothing
while every other file's records are unaffected, the reserved `schema.yaml`
is never read as data, and absent storage (missing directory, or missing
container file in the unpartitioned layout) yields an empty result rather
than an error — for both the staleness scan and the record counters. -/
theorem c8_partition_fault_isolation :
    (∀ (entity : String) (th now : Int) (fs1 fs2 : List PartFile) (name : String),
      partStaleFiles entity th now (fs1 ++ ⟨name, none⟩ :: fs2) =
        partStaleFiles entity th now (fs1 ++ fs2)) ∧
    (∀ (entity : String) (th now : Int) (fs1 fs2 : List PartFile)
        (c : Option (List Record)),
      partStaleFiles entity th now (fs1 ++ ⟨"schema.yaml", c⟩ :: fs2) =
        partStaleFiles entity th now (fs1 ++ fs2)) ∧
    (∀ (fs1 fs2 : List PartFile) (name : String),
      partCountFiles (fs1 ++ ⟨name, none⟩ :: fs2) = partCountFiles (fs1 ++ fs2)) ∧
    (∀ (fs1 fs2 : List PartFile) (c : Option (List Record)),
      partCountFiles (fs1 ++ ⟨"schema.yaml", c⟩ :: fs2) =
        partCountFiles (fs1 ++ fs2)) ∧
    (∀ (proj : Project) (now : Int) (entity : String),
      (proj.data entity).dirExists = false →
        check_entity_freshness proj now entity = [] ∧
        count_entity_records proj entity = ⟨0, 0⟩) ∧
    (∀ (proj : Project) (now : Int) (entity : String),
      (lookupEntity proj entity).partitioned ≠ some "monthly" →
      (proj.data entity).recordsFile = none →
        check_entity_freshness proj now entity = []) := by
  refine ⟨?_, ?_, ?_, ?_, ?_, ?_⟩
  · intro entity th now fs1 fs2 name
    simp only [partStaleFiles, List.flatMap_append, List.flatMap_cons]
    congr 1
    by_cases hn : name = "schema.yaml" <;> simp [hn]
  · intro entity th now fs1 fs2 c
    simp only [partStaleFiles, List.flatMap_append, List.flatMap_cons]
    congr 1
  · intro fs1 fs2 name
    have hz : fileStats ⟨name, none⟩ = ⟨0, 0⟩ := by
      by_cases hn : name = "schema.yaml" <;> simp [fileStats, hn]
    simp only [partCountFiles, List.foldl_append, List.foldl_cons, hz]
    rfl
  · intro fs1 fs2 c
    have hz : fileStats ⟨"schema.yaml", c⟩ = ⟨0, 0⟩ := by simp [fileStats]
    simp only [partCountFiles, List.foldl_append, List.foldl_cons, hz]
    rfl
  · intro proj now entity h
    exact ⟨by simp [check_entity_freshness, h], by simp [count_entity_records, h]⟩
  · intro proj now entity hp hr
    simp [check_entity_freshness, hp, hr]

def projC8 : Project :=
  { entities := [("tasks", { enabled := true })]
    data := fun _ => { dirExists := false } }

theorem c8_witness :
    partStaleFiles "tasks" 0 0
        ([⟨"2024-01.yaml", some []⟩] ++ ⟨"2024-02.yaml", none⟩ :: [⟨"2024-03.yaml", some []⟩]) =
      partStaleFiles "tasks" 0 0 ([⟨"2024-01.yaml", some []⟩] ++ [⟨"2024-03.yaml", some []⟩]) ∧
    check_entity_freshness projC8 0 "tasks" = [] ∧
    count_entity_records projC8 "tasks" = ⟨0, 0⟩ := by
  refine ⟨c8_partition_fault_isolation.1 "tasks" 0 0 _ _ _, ?_, ?_⟩
  · exact (c8_partition_fault_isolation.2.2.2.2.1 projC8 0 "tasks" (by decide)).1
  · exact (c8_partition_fault_isolation.2.2.2.2.1 projC8 0 "tasks" (by decide)).2

/-- C3: for a record with a resolved, parseable date and a non-closed
status, a date lying exactly `stale_after_days` days before `now` is NOT
reported (the comparison is strict), while a date one day older than that
IS reported. -/
theorem c3_staleness_boundary_strict {entity : String} {s now : Int}
    {r : Record} {d : Int}
    (hp : parseDate ((resolvedDateStr r).getD "") = some d)
    (hs : lowerStr (r.status.getD "") ∉ closedStatusesUnpart) :
    (now = (d + s) * 86400 →
      unpartProcessRecord entity (now - s * 86400) now r = none) ∧
    (now = (d + s + 1) * 86400 →
      (unpartProcessRecord entity (now - s * 86400) now r).isSome) := by
  constructor
  · intro hnow
    have hlt : ¬ (d * 86400 < now - s * 86400) := by subst hnow; omega
    have := (@unpartProcessRecord_stale_iff entity (now - s * 86400) now r d
      hp hs).not.mpr hlt
    simpa [Option.not_isSome_iff_eq_none] using this
  · intro hnow
    apply (unpartProcessRecord_stale_iff hp hs).mpr
    subst hnow; omega

def recC3a : Record := { created := some "2024-01-31", status := some "open" }

def recC3b : Record := { created := some "2024-01-30", status := some "open" }

theorem c3_witness :
    unpartProcessRecord "tasks" ((19783 : Int) * 86400 - 30 * 86400)
        ((19783 : Int) * 86400) recC3a = none ∧
    (unpartProcessRecord "tasks" ((19783 : Int) * 86400 - 30 * 86400)
        ((19783 : Int) * 86400) recC3b).isSome := by
  constructor
  · exact (@c3_staleness_boundary_strict "tasks" 30 ((19783 : Int) * 86400)
      recC3a 19753 (by decide) (by decide)).1 (by norm_num)
  · exact (@c3_staleness_boundary_strict "tasks" 30 ((19783 : Int) * 86400)
      recC3b 19752 (by decide) (by decide)).2 (by norm_num)

/-- C6: the aggregated staleness sequence is sorted descending by
`days_old`, entries with equal `days_old` keep their aggregation order, the
sorted sequence is a permutation of (hence complete with respect to) the
aggregate, and the top-10 truncation happens only in the rendered output,
which also carries the untruncated total. -/
theorem c6_sort_descending_stable_complete (proj : Project) (now : Int) :
    (sortedStale proj now).Perm (allStale proj now) ∧
    (sortedStale proj now).Pairwise (fun a b => b.days_old ≤ a.days_old) ∧
    (∀ k : Int, (sortedStale proj now).filter (fun x => x.days_old = k) =
      (allStale proj now).filter fun x => x.days_old = k) ∧
    ∀ out, mainOutput proj now = some out →
      out.details = (sortedStale proj now).take 10 ∧
      out.total_stale = (sortedStale proj now).length := by
  refine ⟨sortKeyDesc_perm _ _, sortKeyDesc_pairwise _ _,
    fun k => sortKeyDesc_filter_key _ _ k, ?_⟩
  intro out hout
  unfold mainOutput at hout
  split at hout
  · exact absurd hout (by simp)
  · split at hout
    · exact absurd hout (by simp)
    · cases Option.some_inj.mp hout
      exact ⟨rfl, rfl⟩

def projC6 : Project :=
  { entities := [("tasks", { enabled := true })]
    data := fun _ =>
      { dirExists := true
        recordsFile := some (some
          [{ created := some "2024-01-01", status := some "open" }]) } }

theorem c6_witness :
    (mainOutput projC6 ((19753 + 30) * 86400)).getD ⟨0, []⟩ =
      { total_stale := (sortedStale projC6 ((19753 + 30) * 86400)).length
        details := (sortedStale projC6 ((19753 + 30) * 86400)).take 10 } := by
  obtain ⟨hd, ht⟩ :=
    (c6_sort_descending_stable_complete projC6 ((19753 + 30) * 86400)).2.2.2
      ((mainOutput projC6 ((19753 + 30) * 86400)).getD ⟨0, []⟩) (by decide)
  rw [← hd, ← ht]

/-- A record whose resolved date is falsy or unparseable produces no
unpartitioned staleness entry. -/
theorem unpartProcessRecord_none_of_unparseable {e : String} {th now : Int}
    {r : Record}
    (h : ¬ truthyStr (resolvedDateStr r) ∨
      parseDate ((resolvedDateStr r).getD "") = none) :
    unpartProcessRecord e th now r = none := by
  unfold unpartProcessRecord
  rcases h with h | h
  · rw [if_pos h]
  · split
    · rfl
    · rw [h]

def projC1 : Project :=
  { entities := [("tasks", { enabled := true, partitioned := some "monthly" })]
    data := fun _ =>
      { dirExists := true
        files := [⟨"2020-01.yaml",
          some [{ date := some "2020-01-05", status := some "Archived" }]⟩] } }

/-- C1 is false as stated: in the partitioned layout a record whose status
is `"Archived"` — in the claimed closed set up to case — is reported stale
(the partitioned branch compares the raw status against a four-element,
case-sensitive list). -/
theorem c1_counterexample :
    lowerStr "Archived" ∈ closedStatusesUnpart ∧
    check_entity_freshness projC1 1709251200 "tasks" =
      [{ entity := "tasks", id := "Unknown", date := "2020-01-05"
         days_old := 1517 }] := by decide

/-- C1 amended: in the unpartitioned layout a record whose lower-cased
status is one of the seven fixed defaults is never reported; in the
partitioned layout the exemption set is the case-sensitive four-element set
`{archived, completed, done, canceled}`, and no entity-specific additions
exist in either layout. -/
theorem c1_closed_status_never_reported :
    (∀ (e : String) (th now : Int) (r : Record),
      lowerStr (r.status.getD "") ∈ closedStatusesUnpart →
      unpartProcessRecord e th now r = none) ∧
    (∀ (e : String) (th now : Int) (r : Record) (rest : List Record),
      (r.status.getD "unknown") ∈ closedStatusesPart →
      (partProcessRecords e th now (r :: rest) =
          partProcessRecords e th now rest ∨
        partProcessRecords e th now (r :: rest) = [])) := by
  constructor
  · intro e th now r hs
    unfold unpartProcessRecord
    split
    · rfl
    · cases hp : parseDate ((resolvedDateStr r).getD "") with
      | none => rfl
      | some d => simp [hs]
  · intro e th now r rest hs
    by_cases ht : truthyStr r.date
    · cases hp : parseDate (r.date.getD "") with
      | none =>
        right
        exact partProcessRecords_cons_invalid ht hp
      | some d =>
        left
        rw [partProcessRecords_cons_valid ht hp]
        by_cases hth : d * 86400 < th
        · rw [if_pos hth, if_pos hs]
        · rw [if_neg hth]
    · left
      exact partProcessRecords_cons_nodate ht

theorem c1_witness :
    unpartProcessRecord "tasks" 0 0
        { created := some "2020-01-05", status := some "Done" } = none ∧
    partProcessRecords "tasks" 1709251200 1709251200
        ({ date := some "2020-01-05", status := some "archived" } ::
          ([] : List Record)) ∈
      ([partProcessRecords "tasks" 1709251200 1709251200 [],
        ([] : List StaleItem)] : List (List StaleItem)) := by
  constructor
  · exact c1_closed_status_never_reported.1 "tasks" 0 0 _ (by decide)
  · rcases c1_closed_status_never_reported.2 "tasks" 1709251200 1709251200
      { date := some "2020-01-05", status := some "archived" } [] (by decide) with h | h
    · rw [h]; simp
    · rw [h]; simp

def projC2 : Project :=
  { entities := [("tasks", { enabled := true, partitioned := some "monthly" })]
    data := fun _ =>
      { dirExists := true
        files := [⟨"2020-01.yaml",
          some [{ created := some "2020-01-05", status := some "open" }]⟩] } }

/-- C2 is false as stated: in the partitioned layout the fallback list is
not used — a record whose date would resolve through `created` (present,
parseable, far older than the threshold, status open) yields no staleness
entry because only the `date` key is consulted. -/
theorem c2_counterexample :
    resolvedDateStr { created := some "2020-01-05", status := some "open" } =
      some "2020-01-05" ∧
    parseDate "2020-01-05" = some 18266 ∧
    (18266 : Int) * 86400 < 1709251200 - 30 * 86400 ∧
    lowerStr "open" ∉ closedStatusesUnpart ∧
    check_entity_freshness projC2 1709251200 "tasks" = [] := by decide

/-- C2 amended: the `created`/`date`/`date_created`/`date_updated` fallback
resolution with skip-on-unresolved/unparseable and per-record isolation
holds only in the unpartitioned layout; the partitioned layout consults
only the `date` key, and an unparseable `date` there aborts the remainder
of that file's records (entries already produced are kept). -/
theorem c2_date_resolution_amended :
    (∀ (e : String) (th now : Int) (pre post : List Record) (r : Record),
      (¬ truthyStr (resolvedDateStr r) ∨
        parseDate ((resolvedDateStr r).getD "") = none) →
      (pre ++ r :: post).filterMap (unpartProcessRecord e th now) =
        (pre ++ post).filterMap (unpartProcessRecord e th now)) ∧
    (∀ (e : String) (th now : Int) (r : Record) (rest : List Record),
      ¬ truthyStr r.date →
      partProcessRecords e th now (r :: rest) =
        partProcessRecords e th now rest) ∧
    (∀ (e : String) (th now : Int) (r : Record) (rest : List Record),
      truthyStr r.date → parseDate (r.date.getD "") = none →
      partProcessRecords e th now (r :: rest) = []) := by
  refine ⟨?_, ?_, ?_⟩
  · intro e th now pre post r h
    rw [List.filterMap_append, List.filterMap_append,
      List.filterMap_cons_none (unpartProcessRecord_none_of_unparseable h)]
  · intro e th now r rest hd
    exact partProcessRecords_cons_nodate hd
  · intro e th now r rest ht hp
    exact partProcessRecords_cons_invalid ht hp

theorem c2_witness :
    ([{ created := some "bogus", status := some "open" }] ++
        [] : List Record).filterMap (unpartProcessRecord "tasks" 0 0) =
      (([] ++ [] : List Record)).filterMap (unpartProcessRecord "tasks" 0 0) ∧
    partProcessRecords "tasks" 0 0
        ({ created := some "2020-01-05" } :: [{ date := some "2020-01-05" }]) =
      partProcessRecords "tasks" 0 0 [{ date := some "2020-01-05" }] ∧
    partProcessRecords "tasks" 0 0
        ({ date := some "bogus" } :: [{ date := some "2020-01-05" }]) = [] := by
  refine ⟨?_, ?_, ?_⟩
  · exact c2_date_resolution_amended.1 "tasks" 0 0 [] []
      { created := some "bogus", status := some "open" } (Or.inr (by decide))
  · exact c2_date_resolution_amended.2.1 "tasks" 0 0
      { created := some "2020-01-05" } [{ date := some "2020-01-05" }] (by decide)
  · exact c2_date_resolution_amended.2.2 "tasks" 0 0
      { date := some "bogus" } [{ date := some "2020-01-05" }] (by decide) (by decide)

def projC5 : Project :=
  { entities := [("notes", { enabled := true })]
    data := fun _ =>
      { dirExists := true
        recordsFile := some (some
          [{ topic := some "mytopic", created := some "2020-01-05"
             status := some "open" }]) } }

/-- C5 is false as stated: in the unpartitioned layout the `topic` key is
never consulted for the displayed identity — a stale record carrying only a
`topic` is rendered with identity `"Unknown"`, not `"mytopic"`. -/
theorem c5_counterexample :
    check_entity_freshness projC5 1709251200 "notes" =
      [{ entity := "notes", id := "Unknown", title := some ""
         status := some "open", date := "2020-01-05", days_old := 1517 }] ∧
    ("Unknown" : String) ≠ "mytopic" := by decide

/-- C5 amended: every reported entry's identity comes from its source
record through the branch-specific resolver — `id` then `number` then
`title` (first truthy value, default `"Unknown"`) in the unpartitioned
layout, and `id` if present else `topic` else `"Unknown"` in the
partitioned layout. -/
theorem c5_identity_resolution {proj : Project} {now : Int} {entity : String}
    {item : StaleItem} (h : item ∈ check_entity_freshness proj now entity) :
    ∃ r ∈ storedRecords (proj.data entity),
      if (lookupEntity proj entity).partitioned = some "monthly"
      then item.id = partIdentity r else item.id = unpartIdentity r := by
  obtain ⟨d, -, -, r, hr, hid⟩ := mem_check_entity_freshness h
  exact ⟨r, hr, hid⟩

def projC5w : Project :=
  { entities := [("notes", { enabled := true })]
    data := fun _ =>
      { dirExists := true
        recordsFile := some (some
          [{ id := some "N-1", title := some "a note"
             created := some "2020-01-05", status := some "open" }]) } }

def itemC5w : StaleItem :=
  { entity := "notes", id := "N-1", title := some "a note"
    status := some "open", date := "2020-01-05", days_old := 1517 }

theorem c5_witness :
    ∃ r ∈ storedRecords (projC5w.data "notes"),
      if (lookupEntity projC5w "notes").partitioned = some "monthly"
      then itemC5w.id = partIdentity r else itemC5w.id = unpartIdentity r :=
  @c5_identity_resolution projC5w 1709251200 "notes" itemC5w (by decide)

def cfgC4 (s : String) : EntityConfig := { enabled := true, singular := some s }

def projC4 : Project :=
  { entities := [("aa", cfgC4 "a"), ("bb", cfgC4 "b"), ("cc", cfgC4 "c"),
                 ("dd", cfgC4 "d"), ("ee", cfgC4 "e"), ("ff", cfgC4 "f")]
    data := fun e =>
      { dirExists := true
        recordsFile := some (some
          [{ created := some (if e = "aa" then "2024-01-01"
               else if e = "bb" then "2024-02-01"
               else if e = "cc" then "2024-03-01"
               else if e = "dd" then "2024-04-01"
               else if e = "ee" then "2024-05-01" else "2024-06-01")
             title := some "T", status := some "open" }]) } }

/-- C4 is false as stated: with six enabled entities each holding one dated
record, the entity with the MOST RECENT record (`ff`, 2024-06-01) is the
one dropped by the cap — the five kept lines are the first five entities in
configuration order, not the five most recent. -/
theorem c4_counterexample :
    get_recent_activity projC4 =
      ["- Last a: \"T\" (2024-01-01)", "- Last b: \"T\" (2024-02-01)",
       "- Last c: \"T\" (2024-03-01)", "- Last d: \"T\" (2024-04-01)",
       "- Last e: \"T\" (2024-05-01)"] ∧
    entityActivity projC4 "ff" (cfgC4 "f") = some "- Last f: \"T\" (2024-06-01)" ∧
    "- Last f: \"T\" (2024-06-01)" ∉ get_recent_activity projC4 := by decide

/-- C4 amended: the summarizer yields at most one line per enabled entity
(one optional line each, in configuration order), an entity none of whose
stored records carries any truthy date field contributes no line, and the
output is capped at the FIRST five contributed lines in configuration
order (not by recency). -/
theorem c4_activity_shape :
    (∀ proj : Project, (get_recent_activity proj).length ≤ 5) ∧
    (∀ proj : Project, get_recent_activity proj =
      (proj.entities.filterMap fun p => entityActivity proj p.1 p.2).take 5) ∧
    (∀ (proj : Project) (entity : String) (ecfg : EntityConfig),
      (∀ r ∈ storedRecords (proj.data entity),
        ¬ truthyStr r.created ∧ ¬ truthyStr r.date ∧
        ¬ truthyStr r.date_created ∧ ¬ truthyStr r.date_updated) →
      entityActivity proj entity ecfg = none) := by
  refine ⟨?_, ?_, ?_⟩
  · intro proj
    exact List.length_take_le 5 _
  · intro proj
    rfl
  · intro proj entity ecfg hund
    unfold entityActivity
    split
    · rfl
    · split
      · rfl
      · split
        · have hnone : partMostRecent (proj.data entity).files = none := by
            unfold partMostRecent
            rw [List.findSome?_eq_none_iff]
            intro f hf
            have hfmem : f ∈ (proj.data entity).files :=
              ((sortKeyDesc_perm (fun g => g.name.data)
                (proj.data entity).files).mem_iff).mp hf
            split
            · rfl
            · split
              · rfl
              · rename_i recs hrecs
                rw [Option.map_eq_none', List.find?_eq_none]
                intro r hrm
                have hrrecs : r ∈ recs :=
                  ((sortKeyDesc_perm partDateKey recs).mem_iff).mp hrm
                have hrstored : r ∈ storedRecords (proj.data entity) :=
                  List.mem_append_left _
                    (List.mem_flatMap.mpr ⟨f, hfmem, by rw [hrecs]; exact hrrecs⟩)
                simpa using (hund r hrstored).2.1
          rw [hnone]
          rfl
        · cases hrf : (proj.data entity).recordsFile with
          | none => rfl
          | some o =>
            cases o with
            | none => rfl
            | some recs =>
              cases hsort : sortKeyDesc unpartDateKey recs with
              | nil => simp [unpartMostRecent, hsort]
              | cons top t =>
                have htop : top ∈ recs :=
                  ((sortKeyDesc_perm unpartDateKey recs).mem_iff).mp
                    (by rw [hsort]; exact List.mem_cons_self top t)
                have hstored : top ∈ storedRecords (proj.data entity) :=
                  List.mem_append_right _ (by rw [hrf]; exact htop)
                obtain ⟨h1, h2, h3, h4⟩ := hund top hstored
                have hfal : truthyStr (orTruthy top.created top.date_created) = false := by
                  unfold orTruthy
                  rw [if_neg h1]
                  simpa using h3
                simp [unpartMostRecent, hsort, hfal]

def projC4w : Project :=
  { entities := [("tasks", { enabled := true })]
    data := fun _ =>
      { dirExists := true
        recordsFile := some (some [{ title := some "undated", status := some "open" }]) } }

theorem c4_witness :
    (get_recent_activity projC4w).length ≤ 5 ∧
    entityActivity projC4w "tasks" { enabled := true } = none := by
  constructor
  · exact c4_activity_shape.1 projC4w
  · exact c4_activity_shape.2.2 projC4w "tasks" { enabled := true } (by decide)

/-- C9 amended characterization of the rate limiter: the run is skipped
exactly when the stored timestamp is truthy, parses, and satisfies
`now - t < 1 hour` — i.e. it is less than an hour old OR lies in the
future; otherwise the scan proceeds and reports as usual. -/
theorem c9_rate_limit (proj : Project) (now : Int) :
    (rateLimited proj now = true ↔
      ∃ s t, proj.meta_last_freshness_check = some s ∧ s ≠ "" ∧
        fromisoformat s = some t ∧ now - t < 3600) ∧
    (rateLimited proj now = true → mainOutput proj now = none) ∧
    (rateLimited proj now = false →
      mainOutput proj now =
        if (sortedStale proj now).isEmpty then none
        else some { total_stale := (sortedStale proj now).length
                    details := (sortedStale proj now).take 10 }) := by
  refine ⟨?_, ?_, ?_⟩
  · cases hm : proj.meta_last_freshness_check with
    | none => simp [rateLimited, hm]
    | some s =>
      by_cases hs : s = ""
      · subst hs; simp [rateLimited, hm]
      · cases hf : fromisoformat s with
        | none => simp [rateLimited, hm, hs, hf]
        | some t => simp [rateLimited, hm, hs, hf]
  · intro h
    unfold mainOutput
    rw [if_pos h]
  · intro h
    unfold mainOutput
    rw [if_neg (by simp [h])]

def projC9 : Project :=
  { entities := [("tasks", { enabled := true })]
    meta_last_freshness_check := some "2024-01-01T12:00:00"
    data := fun _ =>
      { dirExists := true
        recordsFile := some (some
          [{ created := some "2020-01-05", status := some "open" }]) } }

/-- C9 is false as stated: a `meta.last_freshness_check` two hours in the
FUTURE of "now" does not lie within the last hour, yet the run is skipped —
the code tests `now - last_check < 1 hour`, which every future timestamp
satisfies; a stale item exists, so a proceeding scan would have reported. -/
theorem c9_counterexample :
    fromisoformat "2024-01-01T12:00:00" = some (1704103200 + 7200) ∧
    rateLimited projC9 1704103200 = true ∧
    mainOutput projC9 1704103200 = none ∧
    sortedStale projC9 1704103200 ≠ [] := by decide

def projC9f : Project :=
  { entities := [("tasks", { enabled := true })]
    meta_last_freshness_check := some "2024-01-01T09:40:00.123456"
    data := fun _ =>
      { dirExists := true
        recordsFile := some (some
          [{ created := some "2020-01-05", status := some "open" }]) } }

theorem c9_witness :
    mainOutput projC9 1704103200 = none ∧
    mainOutput projC9f 1704103200 = none ∧
    mainOutput projC9 1704283200 =
      (if (sortedStale projC9 1704283200).isEmpty then none
       else some { total_stale := (sortedStale projC9 1704283200).length
                   details := (sortedStale projC9 1704283200).take 10 }) := by
  refine ⟨?_, ?_, ?_⟩
  · exact (c9_rate_limit projC9 1704103200).2.1 (by decide)
  · exact (c9_rate_limit projC9f 1704103200).2.1 (by decide)
  · exact (c9_rate_limit projC9 1704283200).2.2 (by decide)

end SecondBrain
